import Mathlib

/-!
# Verification of the Metabase tenant-provisioning backend

Shallow embedding of `src/script.js` (the authoritative variant, the one the
claims cite) and `src/models/DashboardMapping.js`.

Modelling conventions:

* JavaScript numbers are modelled as `Rat` (exact on every value the system
  manipulates; the claims never depend on floating-point rounding).
* The Mongo-backed mapping store is modelled, as the spec directs, as a
  key-value store behind find-one / upsert / delete, keyed by the coerced
  project id.  `findOneAndUpdate` with `$set`/`$setOnInsert` and
  `upsert: true` becomes `Store.upsert`.
* Every remote (axios) call is mediated by an environment oracle `Env` giving
  each endpoint's outcome, and is recorded in a trace of `RemoteCall`s, so
  that theorems can count remote calls and inspect written payloads.
* `async/await` sequencing becomes the state-passing monad `M`; a thrown JS
  error becomes `Except.error` carrying the message.  `try/catch` blocks that
  only log and rethrow (those in `cloneDataPermissionsFromTemplate`,
  `getOrCreateMetabaseGroup`, `setCollectionPermissions`,
  `getOrCreateProjectFolder`) are the semantic identity and are not redrawn;
  the one catch that swallows (`cloneSandboxingRules`) is modelled by
  `M.attempt`.
* `console.log`/`console.error`/timestamps are elided: no claim mentions them.
-/

/-! ## A fragment of JavaScript values

Enough of JS to express the request-body inputs the routes receive: numbers,
strings, booleans, `null` and `undefined`.  `Number(…)` coercion is modelled
by `jsToNumber` (`none` = `NaN`); string-to-number parsing covers the plain
decimal fragment (optional sign, digits, optional fractional part, the empty
string), which is faithful on every input the claims touch. -/

inductive JsValue where
  | num (q : Rat)
  | str (s : String)
  | boolean (b : Bool)
  | nullV
  | undefinedV
deriving DecidableEq, Repr

def parseDigits (l : List Char) : Option Nat :=
  if l = [] then none
  else if l.all (·.isDigit) then
    some (l.foldl (fun acc c => acc * 10 + (c.toNat - 48)) 0)
  else none

/-- Numeric value of a decimal string, JS-style: `none` is `NaN`; the empty
string coerces to `0`; an optional leading sign, then digits with an optional
fractional part ("1.", ".5" included).  Hex, exponent and whitespace forms of
JS are outside the fragment (no claim uses them). -/
def strToNumber (s : String) : Option Rat :=
  if s = "" then some 0 else
  let (neg, body) :=
    match s.data with
    | '-' :: rest => (true, rest)
    | '+' :: rest => (false, rest)
    | l => (false, l)
  match body.splitOnP (· = '.') with
  | [ip] =>
      match parseDigits ip with
      | some n =>
          some (Rat.divInt (if neg then -(Int.ofNat n) else Int.ofNat n) 1)
      | none => none
  | [ip, fp] =>
      if ip = [] ∧ fp = [] then none
      else
        match (if ip = [] then some 0 else parseDigits ip),
              (if fp = [] then some 0 else parseDigits fp) with
        | some n, some f =>
            let den := 10 ^ fp.length
            let numer := n * den + f
            some (Rat.divInt (if neg then -(Int.ofNat numer) else Int.ofNat numer)
              (Int.ofNat den))
        | _, _ => none
  | _ => none

/-- The `Number(x)` coercion: `none` means `NaN`. -/
def jsToNumber : JsValue → Option Rat
  | .num q => some q
  | .str s => strToNumber s
  | .boolean b => some (if b then 1 else 0)
  | .nullV => some 0
  | .undefinedV => none

/-- String rendering of a JS number, as used by template literals.  Faithful
on integers (the only values that reach a template literal in any claim);
non-integral rationals are rendered as "num/den", a placeholder no theorem
relies on. -/
def ratToString (q : Rat) : String :=
  if q.den = 1 then toString q.num
  else toString q.num ++ "/" ++ toString q.den

/-- Template-literal rendering `String(v)` of a JS value. -/
def jsToString : JsValue → String
  | .num q => ratToString q
  | .str s => s
  | .boolean b => if b then "true" else "false"
  | .nullV => "null"
  | .undefinedV => "undefined"

/-! ## Association lists (JS objects with string keys) -/

/-- First-match lookup in an association list (JS object property read). -/
def alookup {α : Type} : List (String × α) → String → Option α
  | [], _ => none
  | (k, v) :: rest, key => if k = key then some v else alookup rest key

/-- Property write: update the first entry with the key, else append
(JS inserts new keys at the end of the object). -/
def aset {α : Type} : List (String × α) → String → α → List (String × α)
  | [], key, v => [(key, v)]
  | (k, w) :: rest, key, v =>
      if k = key then (k, v) :: rest else (k, w) :: aset rest key v

/-- A `DashboardMapping` document (`src/models/DashboardMapping.js`): the
schema defines exactly `projectId` (the key), the mixed-type `dashboardId`
object mapping module name to dashboard id, and `createdAt`/`updatedAt`
(elided: no claim mentions them).  It defines **no** `folderId` or `groupId`
path, and sets no `strict` option, so Mongoose's default strict mode
applies: non-schema paths are silently stripped from updates and never
present on hydrated documents.  The record therefore carries only the
dashboard map. -/
structure Mapping where
  dashboardId : List (String × Nat) := []
deriving DecidableEq, Repr

abbrev Store : Type := List (Rat × Mapping)

/-- `findOne({projectId: pid})`: first record with the key. -/
def Store.findOne : Store → Rat → Option Mapping
  | [], _ => none
  | (k, mp) :: rest, pid => if k = pid then some mp else Store.findOne rest pid

/-- `findOneAndUpdate({projectId: pid}, …, {upsert: true})`: update the first
record with the key by `onex`, or append the freshly created document. -/
def Store.upsert : Store → Rat → (Mapping → Mapping) → Mapping → Store
  | [], pid, _, fresh => [(pid, fresh)]
  | (k, mp) :: rest, pid, onex, fresh =>
      if k = pid then (k, onex mp) :: rest
      else (k, mp) :: Store.upsert rest pid onex fresh

/-- `findOneAndDelete({projectId: pid})`: remove the first record with the key. -/
def Store.del : Store → Rat → Store
  | [], _ => []
  | (k, mp) :: rest, pid => if k = pid then rest else (k, mp) :: Store.del rest pid

/-- The store update performed by `getOrCreateProjectFolder`
(`script.js` lines 283-297): the source sends
`$set {folderId, groupId, updatedAt}` and `$setOnInsert {dashboardId: {},
createdAt}`, but `folderId` and `groupId` are not schema paths and default
strict mode strips them, so an existing record is unchanged (except the
elided `updatedAt`) and an inserted record holds only the `$setOnInsert`
fields. -/
def folderUp (s : Store) (pid : Rat) : Store :=
  Store.upsert s pid (fun mp => mp) { dashboardId := [] }

/-- The store update performed by `resolveDashboardId`:
`$set {dashboardId.<module>: id}` with upsert. -/
def dashUp (s : Store) (pid : Rat) (m : String) (d : Nat) : Store :=
  Store.upsert s pid
    (fun mp => { mp with dashboardId := aset mp.dashboardId m d })
    { dashboardId := [(m, d)] }

structure MbGroup where
  id : Nat
  name : String
deriving DecidableEq, Repr

/-- A GTAP (sandboxing) rule as listed by `GET /api/mt/gtap`.
`attribute_remappings` is an uninterpreted JSON payload. -/
structure Gtap where
  id : Nat
  group_id : Nat
  table_id : Nat
  card_id : Option Nat
  attribute_remappings : String
deriving DecidableEq, Repr

/-- The body `POST /api/mt/gtap` receives when a rule is cloned. -/
structure GtapNew where
  group_id : Nat
  table_id : Nat
  card_id : Option Nat
  attribute_remappings : String
deriving DecidableEq, Repr

/-- The data-permission graph: per-group permission subtrees (uninterpreted
JSON blobs, keyed by the group id rendered as a string) plus the rest of the
document, carried through the read-modify-write unchanged. -/
structure PermGraph where
  groups : List (String × String)
  rest : String
deriving DecidableEq, Repr

/-- One group's entry in the collection permission graph: a possible `name`
property (the code probes it when looking for "All Users") and per-collection
permission strings keyed by collection id. -/
structure CollEntry where
  name : Option String := none
  perms : List (String × String) := []
deriving DecidableEq, Repr

structure CollGraph where
  groups : List (String × CollEntry)
  rest : String
deriving DecidableEq, Repr

structure CollectionReq where
  name : String
  description : String
  parent_id : Nat
  color : String
deriving DecidableEq, Repr

structure CopyReq where
  name : String
  description : String
  is_deep_copy : Bool
  collection_id : Nat
deriving DecidableEq, Repr

/-- One remote (axios) call, with the payload where a claim inspects it. -/
inductive RemoteCall where
  | getGtaps
  | deleteGtap (id : Nat)
  | postGtap (g : GtapNew)
  | getPermGraph
  | putPermGraph (g : PermGraph)
  | getGroups
  | createGroup (name : String)
  | getCollectionGraph
  | putCollectionGraph (g : CollGraph)
  | createCollection (r : CollectionReq)
  | copyDashboard (templateId : Option Nat) (r : CopyReq)
deriving DecidableEq, Repr

/-- Outcome oracle for the remote service: each endpoint's result, an
`Except.error` being an HTTP/network failure thrown by axios. -/
structure Env where
  getGtaps : Except String (List Gtap)
  deleteGtap : Nat → Except String Unit
  postGtap : GtapNew → Except String Unit
  getPermGraph : Except String PermGraph
  putPermGraph : PermGraph → Except String Unit
  getGroups : Except String (List MbGroup)
  createGroup : String → Except String MbGroup
  getCollectionGraph : Except String CollGraph
  putCollectionGraph : CollGraph → Except String Unit
  createCollection : CollectionReq → Except String Nat
  copyDashboard : Option Nat → CopyReq → Except String Nat

/-! ## The effect monad

A computation takes the environment oracle and the store, and returns the
outcome (`Except.error` = thrown JS error), the final store, and the ordered
trace of remote calls it made. -/

def M (α : Type) : Type := Env → Store → Except String α × Store × List RemoteCall

def M.pure {α : Type} (a : α) : M α := fun _ s => (.ok a, s, [])

def M.bind {α β : Type} (x : M α) (f : α → M β) : M β := fun env s =>
  match x env s with
  | (.ok a, s1, t1) =>
      match f a env s1 with
      | (r, s2, t2) => (r, s2, t1 ++ t2)
  | (.error e, s1, t1) => (.error e, s1, t1)

instance : Monad M where
  pure := M.pure
  bind := M.bind

/-- A thrown error. -/
def M.throw {α : Type} (e : String) : M α := fun _ s => (.error e, s, [])

/-- A `try { x } catch (e) { h(e) }` block. -/
def M.attempt {α : Type} (x : M α) (h : String → M α) : M α := fun env s =>
  match x env s with
  | (.ok a, s1, t1) => (.ok a, s1, t1)
  | (.error e, s1, t1) =>
      match h e env s1 with
      | (r, s2, t2) => (r, s2, t1 ++ t2)

def remoteGetGtaps : M (List Gtap) := fun env s => (env.getGtaps, s, [.getGtaps])

def remoteDeleteGtap (id : Nat) : M Unit := fun env s =>
  (env.deleteGtap id, s, [.deleteGtap id])

def remotePostGtap (g : GtapNew) : M Unit := fun env s =>
  (env.postGtap g, s, [.postGtap g])

def remoteGetPermGraph : M PermGraph := fun env s =>
  (env.getPermGraph, s, [.getPermGraph])

def remotePutPermGraph (g : PermGraph) : M Unit := fun env s =>
  (env.putPermGraph g, s, [.putPermGraph g])

def remoteGetGroups : M (List MbGroup) := fun env s =>
  (env.getGroups, s, [.getGroups])

def remoteCreateGroup (name : String) : M MbGroup := fun env s =>
  (env.createGroup name, s, [.createGroup name])

def remoteGetCollGraph : M CollGraph := fun env s =>
  (env.getCollectionGraph, s, [.getCollectionGraph])

def remotePutCollGraph (g : CollGraph) : M Unit := fun env s =>
  (env.putCollectionGraph g, s, [.putCollectionGraph g])

def remoteCreateCollection (r : CollectionReq) : M Nat := fun env s =>
  (env.createCollection r, s, [.createCollection r])

/-- `POST /api/dashboard/:templateId/copy`.  A `none` template id is the JS
`undefined` interpolated into the URL (`/api/dashboard/undefined/copy`),
which happens when the module config was an inherited prototype member. -/
def remoteCopyDashboard (templateId : Option Nat) (r : CopyReq) : M Nat := fun env s =>
  (env.copyDashboard templateId r, s, [.copyDashboard templateId r])

/-! Store primitives (no remote call recorded). -/

def dbFindOne (pid : Rat) : M (Option Mapping) := fun _ s =>
  (.ok (Store.findOne s pid), s, [])

/-- The folder upsert call; the `f`/`g` arguments mirror the source call
`findOneAndUpdate(..., {$set: {folderId: newFolderId, groupId, ...}}, ...)`
but strict mode strips both non-schema paths, so the store effect ignores
them. -/
def dbUpsertFolder (pid : Rat) (_f _g : Nat) : M Unit := fun _ s =>
  (.ok (), folderUp s pid, [])

def dbUpsertDash (pid : Rat) (m : String) (d : Nat) : M Unit := fun _ s =>
  (.ok (), dashUp s pid m d, [])

/-! ## Static configuration (`src/script.js` lines 15-22) -/

/-- `CONFIG_MAP`: module name to template dashboard id. -/
def CONFIG_MAP : List (String × Nat) :=
  [("Sales", 71), ("Marketing", 176), ("Operations", 106)]

def main_folder_id : Nat := 162

def TEMPLATE_GROUP_ID : Nat := 269

/-! ## Helper functions of `src/script.js` -/

/-- Loop body "delete any existing GTAP rules for target group"
(`script.js` lines 73-78). -/
def deleteGtapsLoop : List Gtap → M Unit
  | [] => pure ()
  | g :: rest => do
      remoteDeleteGtap g.id
      deleteGtapsLoop rest

/-- Loop body "clone each GTAP rule from template to target"
(`script.js` lines 81-98). -/
def cloneGtapsLoop (targetGroupId : Nat) : List Gtap → M Unit
  | [] => pure ()
  | t :: rest => do
      remotePostGtap
        { group_id := targetGroupId
          table_id := t.table_id
          card_id := t.card_id
          attribute_remappings := t.attribute_remappings }
      cloneGtapsLoop targetGroupId rest

/-- `cloneSandboxingRules` (`script.js` lines 47-110).  The whole body sits in
a `try` whose `catch` only logs ("Don't throw - sandboxing is optional"), so
every failure is swallowed. -/
def cloneSandboxingRules (targetGroupId : Nat) : M Unit :=
  M.attempt
    (do
      let allGtaps ← remoteGetGtaps
      let templateGtaps := allGtaps.filter (fun g => g.group_id == TEMPLATE_GROUP_ID)
      if templateGtaps.length = 0 then
        pure ()
      else do
        let targetGtaps := allGtaps.filter (fun g => g.group_id == targetGroupId)
        deleteGtapsLoop targetGtaps
        cloneGtapsLoop targetGroupId templateGtaps)
    (fun _ => pure ())

/-- `cloneDataPermissionsFromTemplate` (`script.js` lines 115-163).  The JSON
stringify/parse deep copy of the template subtree is the identity on the
modelled value.  The source `catch` logs and rethrows, which is the identity
on outcomes, so it is not redrawn. -/
def cloneDataPermissionsFromTemplate (targetGroupId : Nat) : M Unit := do
  let permGraph ← remoteGetPermGraph
  let groups := permGraph.groups
  let templateKey := toString TEMPLATE_GROUP_ID
  let targetKey := toString targetGroupId
  match alookup groups templateKey with
  | none => pure ()
  | some template =>
      if templateKey = targetKey then
        pure ()
      else do
        remotePutPermGraph { permGraph with groups := aset groups targetKey template }
        cloneSandboxingRules targetGroupId

/-- `getOrCreateMetabaseGroup` (`script.js` lines 166-207).  Its `catch`
logs and rethrows (identity). -/
def getOrCreateMetabaseGroup (projectId : Rat) : M Nat := do
  let groupName := "Tenant_" ++ ratToString projectId
  let groups ← remoteGetGroups
  match groups.find? (fun g => g.name == groupName) with
  | some existingGroup => do
      cloneDataPermissionsFromTemplate existingGroup.id
      pure existingGroup.id
  | none => do
      let newGroup ← remoteCreateGroup groupName
      cloneDataPermissionsFromTemplate newGroup.id
      pure newGroup.id

/-- Write a permission string into a group's entry of the collection graph
(in-place JS mutation `permGraph.groups[gid][cid] = v`; the entry is known to
exist at every use site). -/
def collSet : List (String × CollEntry) → String → String → String →
    List (String × CollEntry)
  | [], _, _, _ => []
  | (k, e) :: rest, gk, ck, v =>
      if k = gk then (k, { e with perms := aset e.perms ck v }) :: rest
      else (k, e) :: collSet rest gk ck v

/-- `Object.keys(groups).find(id => groups[id].name === 'All Users')`. -/
def findAllUsersKey : List (String × CollEntry) → Option String
  | [] => none
  | (k, e) :: rest =>
      if e.name = some "All Users" then some k else findAllUsersKey rest

/-- `setCollectionPermissions` (`script.js` lines 210-249).  Its `catch` logs
and rethrows (identity).  JS number indexing coerces the ids to strings. -/
def setCollectionPermissions (collectionId : Nat) (groupId : Nat) : M Unit := do
  let permGraph ← remoteGetCollGraph
  let gk := toString groupId
  let ck := toString collectionId
  let groups0 :=
    match alookup permGraph.groups gk with
    | some _ => permGraph.groups
    | none => permGraph.groups ++ [(gk, {})]
  let groups1 := collSet groups0 gk ck "write"
  let allUsersGroupId :=
    if (alookup groups1 "1").isSome then some "1"
    else findAllUsersKey groups1
  let groups2 :=
    match allUsersGroupId with
    | some auk =>
        if (alookup groups1 auk).isSome then collSet groups1 auk ck "none"
        else groups1
    | none => groups1
  remotePutCollGraph { permGraph with groups := groups2 }

/-- The truthiness test `mapping?.folderId` of `script.js` line 257.  The
schema defines no `folderId` path, so a hydrated document never carries the
property: the read is always `undefined` (falsy), whether or not a mapping
exists, and the reuse branch this value guards never fires. -/
def truthyFolder : Option Mapping → Option (Nat × Option Nat) :=
  fun _ => none

/-- `getOrCreateProjectFolder` (`script.js` lines 252-307).  All in-repo
callers pass an already-coerced number, so `Number(projectId)` is the
identity and `pid = projectId`.  Returns `{folderId, groupId}`; on the reuse
path `groupId` is whatever the store holds.  Its `catch` logs and rethrows
(identity). -/
def getOrCreateProjectFolder (projectId : Rat) : M (Nat × Option Nat) := do
  let mapping ← dbFindOne projectId
  match truthyFolder mapping with
  | some r => pure r
  | none => do
      let groupId ← getOrCreateMetabaseGroup projectId
      let newFolderId ← remoteCreateCollection
        { name := "Project " ++ ratToString projectId
          description := "Dashboard collection for project " ++ ratToString projectId
          parent_id := main_folder_id
          color := "#509EE3" }
      setCollectionPermissions newFolderId groupId
      dbUpsertFolder projectId newFolderId groupId
      pure (newFolderId, some groupId)

/-- The property names every plain JS object inherits from
`Object.prototype`: reading one of them off an object with no own entry of
that name yields the truthy inherited member (a function, or the prototype
itself for `__proto__`), not `undefined`. -/
def protoKeys : List String :=
  ["constructor", "hasOwnProperty", "isPrototypeOf", "propertyIsEnumerable",
   "toLocaleString", "toString", "valueOf", "__proto__", "__defineGetter__",
   "__defineSetter__", "__lookupGetter__", "__lookupSetter__"]

/-- The JS property read `CONFIG_MAP[moduleName]` including the prototype
chain: an own entry yields the config with its `templateId`; a name
inherited from `Object.prototype` yields a truthy value whose `.templateId`
is `undefined` (the inner `none`); anything else is `undefined` (the outer
`none`). -/
def configLookup (moduleName : String) : Option (Option Nat) :=
  match alookup CONFIG_MAP moduleName with
  | some tid => some (some tid)
  | none => if moduleName ∈ protoKeys then some none else none

/-- `provisionDashboard` (`script.js` lines 310-337).  The guard is JS
truthiness of `CONFIG_MAP[moduleName]`: an inherited prototype member (for
example `CONFIG_MAP["toString"]`) is truthy, so the invalid-module throw is
skipped and the copy is requested with `config.templateId` undefined. -/
def provisionDashboard (projectId : Rat) (moduleName : String) : M Nat := do
  match configLookup moduleName with
  | none => M.throw ("Invalid module: " ++ moduleName)
  | some templateId => do
      let folder ← getOrCreateProjectFolder projectId
      let newDashboardId ← remoteCopyDashboard templateId
        { name := moduleName ++ " Dashboard"
          description := moduleName ++ " dashboard for Project " ++ ratToString projectId
          is_deep_copy := true
          collection_id := folder.1 }
      pure newDashboardId

/-- What `mapping.dashboardId[moduleName]` evaluates to when truthy:
either a stored dashboard id (an own key of the Mixed object) or a member
inherited from `Object.prototype` (a function — for module names such as
"toString"), which the code then returns in place of an id. -/
inductive DashValue where
  | id (d : Nat)
  | protoMember (name : String)
deriving DecidableEq, Repr

/-- The truthiness test `mapping?.dashboardId?.[moduleName]` of `script.js`
line 345: with no mapping, optional chaining short-circuits to `undefined`;
an own entry shadows the prototype and is truthy unless it is the falsy
`0`; with no own entry, a module name inherited from `Object.prototype`
yields the truthy inherited member. -/
def dashTruthy (mapping : Option Mapping) (moduleName : String) : Option DashValue :=
  match mapping with
  | some mp =>
      match alookup mp.dashboardId moduleName with
      | some d => if d ≠ 0 then some (.id d) else none
      | none =>
          if moduleName ∈ protoKeys then some (.protoMember moduleName) else none
  | none => none

/-- `resolveDashboardId` (`script.js` lines 340-366).  The cached return
hands back `mapping.dashboardId[moduleName]` as-is — a stored id, or the
inherited prototype member for a module name like "toString". -/
def resolveDashboardId (projectId : JsValue) (moduleName : String) : M DashValue := do
  match jsToNumber projectId with
  | none => M.throw "Invalid Project ID"
  | some pid => do
      let mapping ← dbFindOne pid
      match dashTruthy mapping moduleName with
      | some hit => pure hit
      | none => do
          let newDashboardId ← provisionDashboard pid moduleName
          dbUpsertDash pid moduleName newDashboardId
          pure (DashValue.id newDashboardId)

/-! ## Token issuing (`script.js` lines 369-384) -/

/-- The profile fields `signToken` reads off the spread `userData`.  `none`
models an absent property; the JS `||` fallback also fires on the present but
falsy empty string. -/
structure Profile where
  first_name : Option String := none
  last_name : Option String := none
deriving DecidableEq, Repr

/-- JS `a || b` for a possibly-absent string property. -/
def jsOrStr : Option String → String → String
  | some s, d => if s = "" then d else s
  | none, d => d

structure TokenPayload where
  email : JsValue
  first_name : String
  last_name : String
  groups : List String
  project_id : JsValue
  email_id : JsValue
deriving DecidableEq, Repr

/-- A signed JWT, modelled as its decoded claim set plus the issue and expiry
times in seconds (`jwt.sign` with `expiresIn: '24h'` sets
`exp = iat + 24*60*60`).  Signing is pure: no remote call, no store access. -/
structure SignedToken where
  payload : TokenPayload
  iat : Nat
  exp : Nat
deriving DecidableEq, Repr

/-- `signToken` (`script.js` lines 369-384). -/
def signToken (projectId : JsValue) (email_id : JsValue) (user : Profile)
    (now : Nat) : SignedToken :=
  let tenantGroup := "Tenant_" ++ jsToString projectId
  { payload :=
      { email := email_id
        first_name := jsOrStr user.first_name "User"
        last_name := jsOrStr user.last_name "Soffront"
        groups := [tenantGroup]
        project_id := projectId
        email_id := email_id }
    iat := now
    exp := now + 24 * 60 * 60 }

/-! ## Routes (`script.js` lines 388-458) -/

/-- The request body fields the two POST routes read.  `profile` stands for
the `...userData` rest of the body. -/
structure ReqBody where
  project_id : JsValue := .undefinedV
  module_name : Option String := none
  dashboard_type : Option String := none
  email_id : JsValue := .undefinedV
  profile : Profile := {}
deriving DecidableEq, Repr

/-- `req.body.module_name || req.body.dashboard_type || 'Management'`. -/
def moduleOf (b : ReqBody) : String :=
  jsOrStr b.module_name (jsOrStr b.dashboard_type "Management")

/-- Handler of `POST /api/dashboard-id` (`script.js` lines 388-401). -/
def dashboardIdRoute (b : ReqBody) : M DashValue :=
  resolveDashboardId b.project_id (moduleOf b)

/-- Handler of `POST /sso/metabase` (`script.js` lines 403-417): resolve the
dashboard with the coercing resolver, then sign the token from the raw
`project_id`. -/
def ssoMetabaseRoute (b : ReqBody) (now : Nat) : M (SignedToken × DashValue) := do
  let dashboardId ← resolveDashboardId b.project_id (moduleOf b)
  pure (signToken b.project_id b.email_id b.profile now, dashboardId)

/-- Store effect of `DELETE /api/dashboard-mapping/:projectId`
(`script.js` lines 438-458): look up by the coerced id and remove the record
when present. -/
def deleteMappingRoute (pid : Rat) (s : Store) : Store :=
  match Store.findOne s pid with
  | some _ => Store.del s pid
  | none => s

/-! ## Compositional facts about runs

`presStore x`: the computation never writes the store.  `traceAll p x`:
every remote call in the computation's trace satisfies `p`.  Both are closed
under the monad operations, which lets the per-function lemmas follow the
shape of the source. -/

def presStore {α : Type} (x : M α) : Prop := ∀ env s, (x env s).2.1 = s

def traceAll {α : Type} (p : RemoteCall → Prop) (x : M α) : Prop :=
  ∀ env s, ∀ c ∈ (x env s).2.2, p c

def isCopy : RemoteCall → Bool
  | .copyDashboard _ _ => true
  | _ => false

def copyCount (t : List RemoteCall) : Nat := (t.filter isCopy).length

def NoCopyCall (c : RemoteCall) : Prop := isCopy c = false

inductive Reachable : Store → Prop where
  | init : Reachable []
  | resolveStep (v : JsValue) (m : String) (env : Env) {s : Store} :
      Reachable s → Reachable ((resolveDashboardId v m env s).2.1)
  | deleteStep (pid : Rat) {s : Store} :
      Reachable s → Reachable (deleteMappingRoute pid s)

/-- Every stored dashboard entry was written under a module name that
passed the provisioning guard (a configured module, or a prototype-named
one whose inherited config is truthy). -/
def modulesKnown (s : Store) : Prop :=
  ∀ p ∈ s, ∀ q ∈ Mapping.dashboardId p.2, configLookup q.1 ≠ none

/-! ## A concrete healthy environment

A fixed remote-service behavior used to instantiate theorems on concrete
inputs: every endpoint succeeds, the template group 269 has a permission
subtree, the collection graph holds the default "All Users" group under key
"1", created groups get id 50, collections id 90 and dashboard copies id
77. -/

def testEnv : Env where
  getGtaps := .ok []
  deleteGtap := fun _ => .ok ()
  postGtap := fun _ => .ok ()
  getPermGraph := .ok { groups := [("269", "template-subtree")], rest := "dbperm" }
  putPermGraph := fun _ => .ok ()
  getGroups := .ok []
  createGroup := fun n => .ok { id := 50, name := n }
  getCollectionGraph := .ok
    { groups := [("1", { name := some "All Users", perms := [] })], rest := "collperm" }
  putCollectionGraph := fun _ => .ok ()
  createCollection := fun _ => .ok 90
  copyDashboard := fun _ _ => .ok 77

/-- The healthy environment with every GTAP (sandboxing) endpoint failing and
the tenant group `Tenant_7` already existing with id 50. -/
def gtapFailEnv : Env :=
  { testEnv with
    getGtaps := .error "gtap listing down"
    deleteGtap := fun _ => .error "gtap delete down"
    postGtap := fun _ => .error "gtap create down"
    getGroups := .ok [{ id := 50, name := "Tenant_7" }] }


/-- Read one group's permission on one collection off a collection
permission graph. -/
def collPermOf (g : CollGraph) (gk ck : String) : Option String :=
  match alookup g.groups gk with
  | some e => alookup e.perms ck
  | none => none


/-! ## Theorems -/

theorem alookup_aset_self {α : Type} (l : List (String × α)) (k : String) (v : α) :
    alookup (aset l k v) k = some v := by
  induction l with
  | nil => simp [aset, alookup]
  | cons q rest ih =>
      obtain ⟨qk, qv⟩ := q
      by_cases h : qk = k
      · simp [aset, h, alookup]
      · simp [aset, h, alookup, ih]

theorem alookup_aset_ne {α : Type} (l : List (String × α)) (k k' : String) (v : α)
    (h : k' ≠ k) : alookup (aset l k v) k' = alookup l k' := by
  have h2 : ¬ k = k' := fun hh => h hh.symm
  induction l with
  | nil => simp [aset, alookup, h2]
  | cons q rest ih =>
      obtain ⟨qk, qv⟩ := q
      by_cases hk : qk = k
      · subst hk
        simp [aset, alookup, h2]
      · simp [aset, hk, alookup, ih]

theorem mem_aset {α : Type} {l : List (String × α)} {k : String} {v : α} {p : String × α}
    (hp : p ∈ aset l k v) : p = (k, v) ∨ p ∈ l := by
  induction l with
  | nil =>
      simp only [aset, List.mem_singleton] at hp
      exact Or.inl hp
  | cons q rest ih =>
      obtain ⟨qk, qv⟩ := q
      by_cases hk : qk = k
      · subst hk
        simp only [aset, if_true, eq_self_iff_true, List.mem_cons] at hp
        rcases hp with h1 | h1
        · exact Or.inl h1
        · exact Or.inr (List.mem_cons_of_mem _ h1)
      · simp only [aset, if_neg hk, List.mem_cons] at hp
        rcases hp with h1 | h1
        · exact Or.inr (h1 ▸ List.mem_cons_self _ _)
        · rcases ih h1 with h2 | h2
          · exact Or.inl h2
          · exact Or.inr (List.mem_cons_of_mem _ h2)

/-! ## The mapping store -/

theorem findOne_upsert_self (s : Store) (pid : Rat) (onex : Mapping → Mapping)
    (fresh : Mapping) :
    Store.findOne (Store.upsert s pid onex fresh) pid =
      some (match Store.findOne s pid with
            | some mp => onex mp
            | none => fresh) := by
  induction s with
  | nil => simp [Store.upsert, Store.findOne]
  | cons q rest ih =>
      obtain ⟨qk, qv⟩ := q
      by_cases h : qk = pid
      · simp [Store.upsert, Store.findOne, h]
      · simp [Store.upsert, Store.findOne, h, ih]

theorem mem_upsert {s : Store} {pid : Rat} {onex : Mapping → Mapping}
    {fresh : Mapping} {p : Rat × Mapping} (hp : p ∈ Store.upsert s pid onex fresh) :
    p ∈ s ∨ (∃ mp, (pid, mp) ∈ s ∧ p = (pid, onex mp)) ∨ p = (pid, fresh) := by
  induction s with
  | nil =>
      simp only [Store.upsert, List.mem_singleton] at hp
      right; right; exact hp
  | cons q rest ih =>
      obtain ⟨qk, qv⟩ := q
      by_cases h : qk = pid
      · subst h
        simp only [Store.upsert, if_true, eq_self_iff_true, List.mem_cons] at hp
        rcases hp with h1 | h1
        · right; left
          exact ⟨qv, List.mem_cons_self _ _, h1⟩
        · left; exact List.mem_cons_of_mem _ h1
      · simp only [Store.upsert, if_neg h, List.mem_cons] at hp
        rcases hp with h1 | h1
        · left; exact h1 ▸ List.mem_cons_self _ _
        · rcases ih h1 with h2 | h2 | h2
          · left; exact List.mem_cons_of_mem _ h2
          · right; left
            obtain ⟨mp, hmem, heq⟩ := h2
            exact ⟨mp, List.mem_cons_of_mem _ hmem, heq⟩
          · right; right; exact h2

theorem mem_del {s : Store} {pid : Rat} {p : Rat × Mapping}
    (hp : p ∈ Store.del s pid) : p ∈ s := by
  induction s with
  | nil => simp [Store.del] at hp
  | cons q rest ih =>
      obtain ⟨qk, qv⟩ := q
      by_cases h : qk = pid
      · subst h
        simp only [Store.del, if_true, eq_self_iff_true] at hp
        exact List.mem_cons_of_mem _ hp
      · simp only [Store.del, if_neg h, List.mem_cons] at hp
        rcases hp with h1 | h1
        · exact h1 ▸ List.mem_cons_self _ _
        · exact List.mem_cons_of_mem _ (ih h1)

/-! ## Remote API data and the environment oracle -/

theorem M.bind_def {α β : Type} (x : M α) (f : α → M β) : x >>= f = M.bind x f := rfl

theorem M.pure_def {α : Type} (a : α) : (Pure.pure a : M α) = M.pure a := rfl

/-! Remote primitives (record the call, consult the oracle). -/

theorem presStore_pure {α : Type} (a : α) : presStore (pure a : M α) :=
  fun _ _ => rfl

theorem presStore_throw {α : Type} (e : String) : presStore (M.throw e : M α) :=
  fun _ _ => rfl

theorem presStore_bind {α β : Type} {x : M α} {f : α → M β}
    (hx : presStore x) (hf : ∀ a, presStore (f a)) : presStore (x >>= f) := by
  intro env s
  have hxs := hx env s
  show (M.bind x f env s).2.1 = s
  rcases hx2 : x env s with ⟨r, s1, t1⟩
  rw [hx2] at hxs
  cases r with
  | ok a =>
      have hfs := hf a env s1
      rcases hf2 : f a env s1 with ⟨r2, s2, t2⟩
      rw [hf2] at hfs
      simp only [M.bind, hx2, hf2]
      exact hfs.trans hxs
  | error e =>
      simp only [M.bind, hx2]
      exact hxs

theorem presStore_attempt {α : Type} {x : M α} {h : String → M α}
    (hx : presStore x) (hh : ∀ e, presStore (h e)) : presStore (M.attempt x h) := by
  intro env s
  have hxs := hx env s
  show (M.attempt x h env s).2.1 = s
  rcases hx2 : x env s with ⟨r, s1, t1⟩
  rw [hx2] at hxs
  cases r with
  | ok a =>
      simp only [M.attempt, hx2]
      exact hxs
  | error e =>
      have hhs := hh e env s1
      rcases hh2 : h e env s1 with ⟨r2, s2, t2⟩
      rw [hh2] at hhs
      simp only [M.attempt, hx2, hh2]
      exact hhs.trans hxs

theorem traceAll_pure {α : Type} (p : RemoteCall → Prop) (a : α) :
    traceAll p (pure a : M α) := by
  intro env s c hc
  simp [Pure.pure, M.pure] at hc

theorem traceAll_throw {α : Type} (p : RemoteCall → Prop) (e : String) :
    traceAll p (M.throw e : M α) := by
  intro env s c hc
  simp [M.throw] at hc

theorem traceAll_bind {α β : Type} {p : RemoteCall → Prop} {x : M α} {f : α → M β}
    (hx : traceAll p x) (hf : ∀ a, traceAll p (f a)) : traceAll p (x >>= f) := by
  intro env s c hc
  have hxs := hx env s
  replace hc : c ∈ (M.bind x f env s).2.2 := hc
  rcases hx2 : x env s with ⟨r, s1, t1⟩
  rw [hx2] at hxs
  cases r with
  | ok a =>
      have hfs := hf a env s1
      rcases hf2 : f a env s1 with ⟨r2, s2, t2⟩
      rw [hf2] at hfs
      simp only [M.bind, hx2, hf2, List.mem_append] at hc
      rcases hc with h1 | h1
      · exact hxs c h1
      · exact hfs c h1
  | error e =>
      simp only [M.bind, hx2] at hc
      exact hxs c hc

theorem traceAll_attempt {α : Type} {p : RemoteCall → Prop} {x : M α}
    {h : String → M α} (hx : traceAll p x) (hh : ∀ e, traceAll p (h e)) :
    traceAll p (M.attempt x h) := by
  intro env s c hc
  have hxs := hx env s
  replace hc : c ∈ (M.attempt x h env s).2.2 := hc
  rcases hx2 : x env s with ⟨r, s1, t1⟩
  rw [hx2] at hxs
  cases r with
  | ok a =>
      simp only [M.attempt, hx2] at hc
      exact hxs c hc
  | error e =>
      have hhs := hh e env s1
      rcases hh2 : h e env s1 with ⟨r2, s2, t2⟩
      rw [hh2] at hhs
      simp only [M.attempt, hx2, hh2, List.mem_append] at hc
      rcases hc with h1 | h1
      · exact hxs c h1
      · exact hhs c h1

theorem presStore_remote_getGtaps : presStore remoteGetGtaps := fun _ _ => rfl

theorem presStore_remote_deleteGtap (id : Nat) : presStore (remoteDeleteGtap id) :=
  fun _ _ => rfl

theorem presStore_remote_postGtap (g : GtapNew) : presStore (remotePostGtap g) :=
  fun _ _ => rfl

theorem presStore_remote_getPermGraph : presStore remoteGetPermGraph :=
  fun _ _ => rfl

theorem presStore_remote_putPermGraph (g : PermGraph) :
    presStore (remotePutPermGraph g) := fun _ _ => rfl

theorem presStore_remote_getGroups : presStore remoteGetGroups := fun _ _ => rfl

theorem presStore_remote_createGroup (n : String) :
    presStore (remoteCreateGroup n) := fun _ _ => rfl

theorem presStore_remote_getCollGraph : presStore remoteGetCollGraph :=
  fun _ _ => rfl

theorem presStore_remote_putCollGraph (g : CollGraph) :
    presStore (remotePutCollGraph g) := fun _ _ => rfl

theorem presStore_remote_createCollection (r : CollectionReq) :
    presStore (remoteCreateCollection r) := fun _ _ => rfl

theorem presStore_remote_copyDashboard (tid : Nat) (r : CopyReq) :
    presStore (remoteCopyDashboard tid r) := fun _ _ => rfl

theorem presStore_dbFindOne (pid : Rat) : presStore (dbFindOne pid) :=
  fun _ _ => rfl

theorem presStore_deleteGtapsLoop (l : List Gtap) : presStore (deleteGtapsLoop l) := by
  induction l with
  | nil => exact presStore_pure ()
  | cons g rest ih =>
      exact presStore_bind (presStore_remote_deleteGtap g.id) (fun _ => ih)

theorem presStore_cloneGtapsLoop (tg : Nat) (l : List Gtap) :
    presStore (cloneGtapsLoop tg l) := by
  induction l with
  | nil => exact presStore_pure ()
  | cons g rest ih =>
      exact presStore_bind (presStore_remote_postGtap _) (fun _ => ih)

theorem presStore_cloneSandboxingRules (tg : Nat) :
    presStore (cloneSandboxingRules tg) := by
  unfold cloneSandboxingRules
  apply presStore_attempt
  · apply presStore_bind presStore_remote_getGtaps
    intro allGtaps
    dsimp only
    split
    · exact presStore_pure ()
    · exact presStore_bind (presStore_deleteGtapsLoop _)
        (fun _ => presStore_cloneGtapsLoop _ _)
  · intro e
    exact presStore_pure ()

theorem presStore_cloneDataPermissionsFromTemplate (tg : Nat) :
    presStore (cloneDataPermissionsFromTemplate tg) := by
  unfold cloneDataPermissionsFromTemplate
  apply presStore_bind presStore_remote_getPermGraph
  intro permGraph
  dsimp only
  split
  · exact presStore_pure ()
  · split
    · exact presStore_pure ()
    · exact presStore_bind (presStore_remote_putPermGraph _)
        (fun _ => presStore_cloneSandboxingRules _)

theorem presStore_getOrCreateMetabaseGroup (pid : Rat) :
    presStore (getOrCreateMetabaseGroup pid) := by
  unfold getOrCreateMetabaseGroup
  apply presStore_bind presStore_remote_getGroups
  intro groups
  dsimp only
  split
  · exact presStore_bind (presStore_cloneDataPermissionsFromTemplate _)
      (fun _ => presStore_pure _)
  · apply presStore_bind (presStore_remote_createGroup _)
    intro ng
    exact presStore_bind (presStore_cloneDataPermissionsFromTemplate _)
      (fun _ => presStore_pure _)

theorem presStore_setCollectionPermissions (cid gid : Nat) :
    presStore (setCollectionPermissions cid gid) := by
  unfold setCollectionPermissions
  apply presStore_bind presStore_remote_getCollGraph
  intro permGraph
  exact presStore_remote_putCollGraph _

/-! Copy-call counting. -/

theorem copyCount_append (a b : List RemoteCall) :
    copyCount (a ++ b) = copyCount a + copyCount b := by
  simp [copyCount, List.filter_append]

theorem copyCount_eq_zero {t : List RemoteCall} (h : ∀ c ∈ t, isCopy c = false) :
    copyCount t = 0 := by
  induction t with
  | nil => rfl
  | cons c rest ih =>
      have hc := h c (List.mem_cons_self _ _)
      have hr := ih (fun c2 hc2 => h c2 (List.mem_cons_of_mem _ hc2))
      simpa [copyCount, List.filter_cons, hc] using hr

theorem traceAll_remote_getGtaps : traceAll NoCopyCall remoteGetGtaps := by
  intro env s c hc
  simp only [remoteGetGtaps, List.mem_singleton] at hc
  subst hc; rfl

theorem traceAll_remote_deleteGtap (id : Nat) :
    traceAll NoCopyCall (remoteDeleteGtap id) := by
  intro env s c hc
  simp only [remoteDeleteGtap, List.mem_singleton] at hc
  subst hc; rfl

theorem traceAll_remote_postGtap (g : GtapNew) :
    traceAll NoCopyCall (remotePostGtap g) := by
  intro env s c hc
  simp only [remotePostGtap, List.mem_singleton] at hc
  subst hc; rfl

theorem traceAll_remote_getPermGraph : traceAll NoCopyCall remoteGetPermGraph := by
  intro env s c hc
  simp only [remoteGetPermGraph, List.mem_singleton] at hc
  subst hc; rfl

theorem traceAll_remote_putPermGraph (g : PermGraph) :
    traceAll NoCopyCall (remotePutPermGraph g) := by
  intro env s c hc
  simp only [remotePutPermGraph, List.mem_singleton] at hc
  subst hc; rfl

theorem traceAll_remote_getGroups : traceAll NoCopyCall remoteGetGroups := by
  intro env s c hc
  simp only [remoteGetGroups, List.mem_singleton] at hc
  subst hc; rfl

theorem traceAll_remote_createGroup (n : String) :
    traceAll NoCopyCall (remoteCreateGroup n) := by
  intro env s c hc
  simp only [remoteCreateGroup, List.mem_singleton] at hc
  subst hc; rfl

theorem traceAll_remote_getCollGraph : traceAll NoCopyCall remoteGetCollGraph := by
  intro env s c hc
  simp only [remoteGetCollGraph, List.mem_singleton] at hc
  subst hc; rfl

theorem traceAll_remote_putCollGraph (g : CollGraph) :
    traceAll NoCopyCall (remotePutCollGraph g) := by
  intro env s c hc
  simp only [remotePutCollGraph, List.mem_singleton] at hc
  subst hc; rfl

theorem traceAll_remote_createCollection (r : CollectionReq) :
    traceAll NoCopyCall (remoteCreateCollection r) := by
  intro env s c hc
  simp only [remoteCreateCollection, List.mem_singleton] at hc
  subst hc; rfl

theorem traceAll_dbFindOne (pid : Rat) : traceAll NoCopyCall (dbFindOne pid) := by
  intro env s c hc
  simp [dbFindOne] at hc

theorem traceAll_dbUpsertFolder (pid : Rat) (f g : Nat) :
    traceAll NoCopyCall (dbUpsertFolder pid f g) := by
  intro env s c hc
  simp [dbUpsertFolder] at hc

theorem traceAll_deleteGtapsLoop (l : List Gtap) :
    traceAll NoCopyCall (deleteGtapsLoop l) := by
  induction l with
  | nil => exact traceAll_pure _ ()
  | cons g rest ih =>
      exact traceAll_bind (traceAll_remote_deleteGtap g.id) (fun _ => ih)

theorem traceAll_cloneGtapsLoop (tg : Nat) (l : List Gtap) :
    traceAll NoCopyCall (cloneGtapsLoop tg l) := by
  induction l with
  | nil => exact traceAll_pure _ ()
  | cons g rest ih =>
      exact traceAll_bind (traceAll_remote_postGtap _) (fun _ => ih)

theorem traceAll_cloneSandboxingRules (tg : Nat) :
    traceAll NoCopyCall (cloneSandboxingRules tg) := by
  unfold cloneSandboxingRules
  apply traceAll_attempt
  · apply traceAll_bind traceAll_remote_getGtaps
    intro allGtaps
    dsimp only
    split
    · exact traceAll_pure _ ()
    · exact traceAll_bind (traceAll_deleteGtapsLoop _)
        (fun _ => traceAll_cloneGtapsLoop _ _)
  · intro e
    exact traceAll_pure _ ()

theorem traceAll_cloneDataPermissionsFromTemplate (tg : Nat) :
    traceAll NoCopyCall (cloneDataPermissionsFromTemplate tg) := by
  unfold cloneDataPermissionsFromTemplate
  apply traceAll_bind traceAll_remote_getPermGraph
  intro permGraph
  dsimp only
  split
  · exact traceAll_pure _ ()
  · split
    · exact traceAll_pure _ ()
    · exact traceAll_bind (traceAll_remote_putPermGraph _)
        (fun _ => traceAll_cloneSandboxingRules _)

theorem traceAll_getOrCreateMetabaseGroup (pid : Rat) :
    traceAll NoCopyCall (getOrCreateMetabaseGroup pid) := by
  unfold getOrCreateMetabaseGroup
  apply traceAll_bind traceAll_remote_getGroups
  intro groups
  dsimp only
  split
  · exact traceAll_bind (traceAll_cloneDataPermissionsFromTemplate _)
      (fun _ => traceAll_pure _ _)
  · apply traceAll_bind (traceAll_remote_createGroup _)
    intro ng
    exact traceAll_bind (traceAll_cloneDataPermissionsFromTemplate _)
      (fun _ => traceAll_pure _ _)

theorem traceAll_setCollectionPermissions (cid gid : Nat) :
    traceAll NoCopyCall (setCollectionPermissions cid gid) := by
  unfold setCollectionPermissions
  apply traceAll_bind traceAll_remote_getCollGraph
  intro permGraph
  exact traceAll_remote_putCollGraph _

theorem traceAll_getOrCreateProjectFolder (pid : Rat) :
    traceAll NoCopyCall (getOrCreateProjectFolder pid) := by
  unfold getOrCreateProjectFolder
  apply traceAll_bind (traceAll_dbFindOne pid)
  intro mapping
  dsimp only
  split
  · exact traceAll_pure _ _
  · apply traceAll_bind (traceAll_getOrCreateMetabaseGroup _)
    intro gid
    apply traceAll_bind (traceAll_remote_createCollection _)
    intro f
    apply traceAll_bind (traceAll_setCollectionPermissions _ _)
    intro u
    exact traceAll_bind (traceAll_dbUpsertFolder _ _ _) (fun _ => traceAll_pure _ _)

theorem copyCount_getOrCreateProjectFolder (pid : Rat) (env : Env) (s : Store) :
    copyCount ((getOrCreateProjectFolder pid env s).2.2) = 0 :=
  copyCount_eq_zero (fun c hc => traceAll_getOrCreateProjectFolder pid env s c hc)

/-! ## Run characterizations -/

/-- Unfolding of a bound run, in projection form. -/
theorem run_bind {α β : Type} (x : M α) (f : α → M β) (env : Env) (s : Store) :
    (x >>= f) env s =
      match x env s with
      | (.ok a, s1, t1) =>
          ((f a env s1).1, (f a env s1).2.1, t1 ++ (f a env s1).2.2)
      | (.error e, s1, t1) => (.error e, s1, t1) := by
  show M.bind x f env s = _
  unfold M.bind
  rcases x env s with ⟨r, s1, t1⟩
  cases r with
  | ok a =>
      rcases hf : f a env s1 with ⟨r2, s2, t2⟩
      simp [hf]
  | error e => rfl

/-- Cached-dashboard path of `resolveDashboardId`: immediate return of the
truthy property value, no store write, no remote call. -/
theorem resolve_cached_run {v : JsValue} {pid : Rat} {m : String} {env : Env}
    {s : Store} {hit : DashValue} (hv : jsToNumber v = some pid)
    (hc : dashTruthy (Store.findOne s pid) m = some hit) :
    resolveDashboardId v m env s = (.ok hit, s, []) := by
  unfold resolveDashboardId
  rw [hv]
  simp [run_bind, dbFindOne, hc, Pure.pure, M.pure]

/-- NaN path of `resolveDashboardId`: immediate input error, before any store
lookup or remote call. -/
theorem resolve_nan_run {v : JsValue} {m : String} {env : Env} {s : Store}
    (hv : jsToNumber v = none) :
    resolveDashboardId v m env s = (.error "Invalid Project ID", s, []) := by
  unfold resolveDashboardId
  rw [hv]
  rfl

/-- `resolveDashboardId` only consumes its project-id argument through
`Number(…)`: it behaves exactly as on the coerced number. -/
theorem resolve_coerce_run {v : JsValue} {q : Rat} {m : String}
    (hv : jsToNumber v = some q) (env : Env) (s : Store) :
    resolveDashboardId v m env s = resolveDashboardId (.num q) m env s := by
  unfold resolveDashboardId
  rw [hv]
  rfl

/-- Unknown-module path: with no (truthy) cached entry and a module name
whose config lookup (prototype chain included) is undefined,
`resolveDashboardId` throws the module-naming input error, writes nothing
and makes no remote call. -/
theorem resolve_unknown_module_run {v : JsValue} {pid : Rat} {m : String}
    {env : Env} {s : Store} (hv : jsToNumber v = some pid)
    (hc : dashTruthy (Store.findOne s pid) m = none)
    (hm : configLookup m = none) :
    resolveDashboardId v m env s = (.error ("Invalid module: " ++ m), s, []) := by
  unfold resolveDashboardId
  rw [hv]
  unfold provisionDashboard
  simp [run_bind, dbFindOne, hc, hm, M.throw]

/-- After the dashboard upsert, the tenant's record holds the new module
entry. -/
theorem findOne_dashUp (s : Store) (pid : Rat) (m : String) (d : Nat) :
    ∃ mp, Store.findOne (dashUp s pid m d) pid = some mp ∧
      alookup mp.dashboardId m = some d := by
  unfold dashUp
  rw [findOne_upsert_self]
  cases Store.findOne s pid with
  | none => exact ⟨_, rfl, by simp [alookup]⟩
  | some mp => exact ⟨_, rfl, by simp [alookup_aset_self]⟩

/-- A successful `provisionDashboard` run implies the module was configured,
and its trace contains exactly one dashboard-copy call. -/
theorem provision_ok_run {pid : Rat} {m : String} {env : Env} {s : Store}
    {d : Nat} {s1 : Store} {t1 : List RemoteCall}
    (h : provisionDashboard pid m env s = (.ok d, s1, t1)) :
    configLookup m ≠ none ∧ copyCount t1 = 1 := by
  unfold provisionDashboard at h
  cases hcfg : configLookup m with
  | none =>
      rw [hcfg] at h
      simp [M.throw] at h
  | some tid =>
      rw [hcfg] at h
      dsimp only at h
      rw [run_bind] at h
      rcases hf : getOrCreateProjectFolder pid env s with ⟨rf, sf, tf⟩
      rw [hf] at h
      cases rf with
      | error e => simp at h
      | ok folder =>
          simp only [run_bind, remoteCopyDashboard, Pure.pure, M.pure] at h
          cases henv : env.copyDashboard tid
              { name := m ++ " Dashboard"
                description := m ++ " dashboard for Project " ++ ratToString pid
                is_deep_copy := true
                collection_id := folder.1 } with
          | error e => rw [henv] at h; simp at h
          | ok nid =>
              rw [henv] at h
              simp only [Prod.mk.injEq] at h
              obtain ⟨h1, h2, h3⟩ := h
              refine ⟨by simp [hcfg], ?_⟩
              have htf : copyCount tf = 0 := by
                have := copyCount_getOrCreateProjectFolder pid env s
                rw [hf] at this
                exact this
              rw [← h3, copyCount_append, htf]
              rfl

/-- The store after any `getOrCreateProjectFolder` run: unchanged, or
exactly one (field-stripped) folder upsert. -/
theorem folder_store_shape (pid : Rat) (env : Env) (s : Store) :
    (getOrCreateProjectFolder pid env s).2.1 = s ∨
    (getOrCreateProjectFolder pid env s).2.1 = folderUp s pid := by
  unfold getOrCreateProjectFolder
  rw [run_bind]
  simp only [dbFindOne]
  cases hT : truthyFolder (Store.findOne s pid) with
  | some r =>
      left
      simp [hT, Pure.pure, M.pure]
  | none =>
      simp only [hT]
      rw [run_bind]
      rcases hg : getOrCreateMetabaseGroup pid env s with ⟨rg, sg, tg⟩
      have hsg : sg = s := by
        have := presStore_getOrCreateMetabaseGroup pid env s
        rw [hg] at this
        exact this
      cases rg with
      | error e => left; simp [hg, hsg]
      | ok gid =>
          simp only [hg]
          rw [run_bind]
          simp only [remoteCreateCollection]
          cases henv : env.createCollection
              { name := "Project " ++ ratToString pid
                description := "Dashboard collection for project " ++ ratToString pid
                parent_id := main_folder_id
                color := "#509EE3" } with
          | error e => left; simp [hsg]
          | ok f =>
              simp only
              rw [run_bind]
              rcases hsc : setCollectionPermissions f gid env sg with ⟨rsc, ssc, tsc⟩
              have hssc : ssc = sg := by
                have := presStore_setCollectionPermissions f gid env sg
                rw [hsc] at this
                exact this
              cases rsc with
              | error e => left; simp [hsc, hssc, hsg]
              | ok u =>
                  right
                  simp [hsc, run_bind, dbUpsertFolder, Pure.pure, M.pure, hssc, hsg]

/-- The store after any `provisionDashboard` run: unchanged, or exactly one
(field-stripped) folder upsert. -/
theorem provision_store_shape (pid : Rat) (m : String) (env : Env) (s : Store) :
    (provisionDashboard pid m env s).2.1 = s ∨
    (provisionDashboard pid m env s).2.1 = folderUp s pid := by
  unfold provisionDashboard
  cases hcfg : configLookup m with
  | none => left; rfl
  | some tid =>
      dsimp only
      rw [run_bind]
      rcases hf : getOrCreateProjectFolder pid env s with ⟨rf, sf, tf⟩
      have hshape := folder_store_shape pid env s
      rw [hf] at hshape
      cases rf with
      | error e =>
          simp only
          exact hshape
      | ok folder =>
          simp only [run_bind, remoteCopyDashboard, Pure.pure, M.pure]
          cases henv : env.copyDashboard tid
              { name := m ++ " Dashboard"
                description := m ++ " dashboard for Project " ++ ratToString pid
                is_deep_copy := true
                collection_id := folder.1 } with
          | error e => simpa using hshape
          | ok nid => simpa using hshape

/-- A successful `resolveDashboardId` run with no cached entry performed
exactly one dashboard copy and stored the returned id under the module. -/
theorem resolve_ok_run {v : JsValue} {pid : Rat} {m : String} {env : Env}
    {s : Store} {d : Nat} {s1 : Store} {t1 : List RemoteCall}
    (hv : jsToNumber v = some pid)
    (hc : dashTruthy (Store.findOne s pid) m = none)
    (h : resolveDashboardId v m env s = (.ok (DashValue.id d), s1, t1)) :
    copyCount t1 = 1 ∧
    ∃ mp, Store.findOne s1 pid = some mp ∧ alookup mp.dashboardId m = some d := by
  unfold resolveDashboardId at h
  rw [hv] at h
  dsimp only at h
  rw [run_bind] at h
  simp only [dbFindOne] at h
  rw [hc] at h
  dsimp only at h
  rw [run_bind] at h
  rcases hp : provisionDashboard pid m env s with ⟨rp, sp, tp⟩
  rw [hp] at h
  cases rp with
  | error e => simp at h
  | ok d2 =>
      simp only [run_bind, dbUpsertDash, Pure.pure, M.pure, List.nil_append,
        List.append_nil, Prod.mk.injEq, Except.ok.injEq, DashValue.id.injEq] at h
      obtain ⟨h1, h2, h3⟩ := h
      subst h1
      have hpc := provision_ok_run hp
      constructor
      · rw [← h3]
        exact hpc.2
      · rw [← h2]
        exact findOne_dashUp sp pid m d2

/-- The store after any `resolveDashboardId` run: unchanged, or one
(field-stripped) folder upsert, or a dashboard upsert for a module that
passed the config guard (possibly on top of the folder upsert). -/
theorem resolve_store_shape (v : JsValue) (m : String) (env : Env) (s : Store) :
    ∃ pid : Rat,
      (resolveDashboardId v m env s).2.1 = s ∨
      (resolveDashboardId v m env s).2.1 = folderUp s pid ∨
      (configLookup m ≠ none ∧
        ((∃ d, (resolveDashboardId v m env s).2.1 = dashUp s pid m d) ∨
         (∃ d, (resolveDashboardId v m env s).2.1 =
            dashUp (folderUp s pid) pid m d))) := by
  cases hv : jsToNumber v with
  | none =>
      refine ⟨0, Or.inl ?_⟩
      rw [resolve_nan_run hv]
  | some pid =>
      refine ⟨pid, ?_⟩
      cases hc : dashTruthy (Store.findOne s pid) m with
      | some hit =>
          left
          rw [resolve_cached_run hv hc]
      | none =>
          unfold resolveDashboardId
          rw [hv]
          dsimp only
          rw [run_bind]
          simp only [dbFindOne]
          rw [hc]
          dsimp only
          rw [run_bind]
          rcases hp : provisionDashboard pid m env s with ⟨rp, sp, tp⟩
          have hshape := provision_store_shape pid m env s
          rw [hp] at hshape
          simp only at hshape
          cases rp with
          | error e =>
              simp only
              rcases hshape with h1 | h1
              · left; exact h1
              · right; left; exact h1
          | ok d2 =>
              have hcfg : configLookup m ≠ none := (provision_ok_run hp).1
              simp only [run_bind, dbUpsertDash, Pure.pure, M.pure]
              right; right
              refine ⟨hcfg, ?_⟩
              rcases hshape with h1 | h1
              · left; exact ⟨d2, by rw [h1]⟩
              · right; exact ⟨d2, by rw [h1]⟩

/-- A successful lookup comes from a member of the list. -/
theorem alookup_mem {α : Type} {l : List (String × α)} {k : String} {v : α}
    (h : alookup l k = some v) : (k, v) ∈ l := by
  induction l with
  | nil => simp [alookup] at h
  | cons q rest ih =>
      obtain ⟨qk, qv⟩ := q
      by_cases hk : qk = k
      · subst hk
        simp only [alookup, if_true, eq_self_iff_true, Option.some.injEq] at h
        subst h
        exact List.mem_cons_self _ _
      · simp only [alookup, if_neg hk] at h
        exact List.mem_cons_of_mem _ (ih h)

/-- A found record is a member of the store. -/
theorem findOne_mem {s : Store} {pid : Rat} {mp : Mapping}
    (h : Store.findOne s pid = some mp) : (pid, mp) ∈ s := by
  induction s with
  | nil => simp [Store.findOne] at h
  | cons q rest ih =>
      obtain ⟨qk, qv⟩ := q
      by_cases hk : qk = pid
      · subst hk
        simp only [Store.findOne, if_true, eq_self_iff_true, Option.some.injEq] at h
        subst h
        exact List.mem_cons_self _ _
      · simp only [Store.findOne, if_neg hk] at h
        exact List.mem_cons_of_mem _ (ih h)

/-! ## Reachable store states

Closure of the empty store under the operations the service exposes: the two
POST routes both mutate the store exactly as `resolveDashboardId` does (the
SSO route additionally signs a token, which is pure), the DELETE route
deletes, and the remaining routes (listing, health, the debug permission
clone) never write the store (`presStore_getOrCreateMetabaseGroup`). -/

theorem modulesKnown_folderUp {s : Store} {pid : Rat}
    (h : modulesKnown s) : modulesKnown (folderUp s pid) := by
  intro p hp q hq
  rcases mem_upsert hp with h1 | ⟨mp, hmem, heq⟩ | h1
  · exact h p h1 q hq
  · subst heq
    exact h (pid, mp) hmem q hq
  · subst h1
    simp at hq

theorem modulesKnown_dashUp {s : Store} {pid : Rat} {m : String} {d : Nat}
    (hm : configLookup m ≠ none) (h : modulesKnown s) :
    modulesKnown (dashUp s pid m d) := by
  intro p hp q hq
  rcases mem_upsert hp with h1 | ⟨mp, hmem, heq⟩ | h1
  · exact h p h1 q hq
  · subst heq
    rcases mem_aset hq with h2 | h2
    · subst h2; exact hm
    · exact h (pid, mp) hmem q h2
  · subst h1
    simp only [List.mem_singleton] at hq
    subst hq
    exact hm

/-- The store invariant holds in every reachable state. -/
theorem reachable_inv {s : Store} (h : Reachable s) : modulesKnown s := by
  induction h with
  | init =>
      intro p hp
      simp at hp
  | resolveStep v m env hs ih =>
      obtain ⟨pid, hshape⟩ := resolve_store_shape v m env _
      rcases hshape with h1 | h1 | ⟨hcfg, h2⟩
      · rw [h1]; exact ih
      · rw [h1]
        exact modulesKnown_folderUp ih
      · rcases h2 with ⟨d, h1⟩ | ⟨d, h1⟩
        · rw [h1]
          exact modulesKnown_dashUp hcfg ih
        · rw [h1]
          exact modulesKnown_dashUp hcfg (modulesKnown_folderUp ih)
  | deleteStep pid hs ih =>
      unfold deleteMappingRoute
      cases Store.findOne _ pid with
      | none => exact ih
      | some mp =>
          exact fun p hp => ih p (mem_del hp)

/-- In a store satisfying the invariant, looking up a module that is
neither configured nor prototype-named finds nothing truthy. -/
theorem modulesKnown_no_unknown {s : Store} (hM : modulesKnown s) {m : String}
    (hm : alookup CONFIG_MAP m = none) (hp : m ∉ protoKeys) (pid : Rat) :
    dashTruthy (Store.findOne s pid) m = none := by
  cases hf : Store.findOne s pid with
  | none => rfl
  | some mp =>
      unfold dashTruthy
      dsimp only
      cases halo : alookup mp.dashboardId m with
      | none => simp [hp]
      | some d =>
          have hmem := findOne_mem hf
          have hk := hM (pid, mp) hmem (m, d) (alookup_mem halo)
          have : configLookup m = none := by
            simp [configLookup, hm, hp]
          exact absurd this hk


/-! ## Claim C6 -/

/-- C6 counterexample: the claim says the token's first_name is taken "from
the profile (fallback "User" when absent)", but for the profile whose
first_name is present and equal to the empty string the code's `||` fallback
fires anyway: the token carries "User", not the profile's value "". -/
theorem token_empty_profile_counterexample :
    (signToken (.num 42) (.str "a@b.com")
        { first_name := some "", last_name := none } 0).payload.first_name
      = "User" ∧ ("User" : String) ≠ "" :=
  ⟨rfl, by decide⟩

/-- C6 (amended): for every tenantId, email and profile, the signed token's
claims have project_id equal to the tenantId, email equal to the given email,
first_name from the profile with fallback "User" when absent or empty (JS
falsy), last_name from the profile with fallback "Soffront" when absent or
empty, a groups claim containing "Tenant_<tenantId>", and expiry exactly 24
hours after issuance.  `signToken` is a pure function of its arguments: by
construction it makes no remote call and no store access. -/
theorem token_claims (projectId email_id : JsValue) (user : Profile) (now : Nat) :
    (signToken projectId email_id user now).payload.project_id = projectId ∧
    (signToken projectId email_id user now).payload.email = email_id ∧
    (∀ s, user.first_name = some s → s ≠ "" →
      (signToken projectId email_id user now).payload.first_name = s) ∧
    ((user.first_name = none ∨ user.first_name = some "") →
      (signToken projectId email_id user now).payload.first_name = "User") ∧
    (∀ s, user.last_name = some s → s ≠ "" →
      (signToken projectId email_id user now).payload.last_name = s) ∧
    ((user.last_name = none ∨ user.last_name = some "") →
      (signToken projectId email_id user now).payload.last_name = "Soffront") ∧
    ("Tenant_" ++ jsToString projectId) ∈
      (signToken projectId email_id user now).payload.groups ∧
    (signToken projectId email_id user now).exp =
      (signToken projectId email_id user now).iat + 24 * 60 * 60 := by
  refine ⟨rfl, rfl, ?_, ?_, ?_, ?_, ?_, rfl⟩
  · intro s hs hne
    simp [signToken, jsOrStr, hs, hne]
  · intro h
    rcases h with h | h <;> simp [signToken, jsOrStr, h]
  · intro s hs hne
    simp [signToken, jsOrStr, hs, hne]
  · intro h
    rcases h with h | h <;> simp [signToken, jsOrStr, h]
  · simp [signToken]

/-- Witness for C6 at the spec's own example inputs. -/
theorem token_claims_witness :
    (signToken (.num 42) (.str "a@b.com")
        { first_name := some "X", last_name := none } 1000).payload.first_name = "X" ∧
    (signToken (.num 42) (.str "a@b.com")
        { first_name := some "X", last_name := none } 1000).payload.last_name
      = "Soffront" ∧
    ("Tenant_42" : String) ∈
      (signToken (.num 42) (.str "a@b.com")
        { first_name := some "X", last_name := none } 1000).payload.groups := by
  have h := token_claims (.num 42) (.str "a@b.com")
    { first_name := some "X", last_name := none } 1000
  exact ⟨h.2.2.1 "X" rfl (by decide), h.2.2.2.2.2.1 (Or.inl rfl),
    h.2.2.2.2.2.2.1⟩

/-! ## Claim C7 -/

/-- C7 counterexample: the JS number 3/2 (= 1.5) is not a well-formed
integer, yet `resolveDashboardId` accepts it (the code only rejects NaN) and,
against a healthy remote service, succeeds. -/
theorem tenant_validation_counterexample :
    (Rat.divInt 3 2).den ≠ 1 ∧
    (resolveDashboardId (.num (Rat.divInt 3 2)) "Sales" testEnv []).1
      = .ok (DashValue.id 77) :=
  ⟨by decide, rfl⟩

/-- C7 (amended): `resolveDashboardId` fails with the input error "Invalid
Project ID" — before any store lookup or remote call (final store unchanged,
empty remote trace) — exactly when `Number(tenantId)` is NaN; for every input
whose numeric coercion yields a number (integer or not) it proceeds, behaving
exactly as on the coerced number. -/
theorem tenant_id_validation (v : JsValue) (m : String) (env : Env) (s : Store) :
    (jsToNumber v = none →
      resolveDashboardId v m env s = (.error "Invalid Project ID", s, [])) ∧
    (∀ q, jsToNumber v = some q →
      resolveDashboardId v m env s = resolveDashboardId (.num q) m env s) := by
  constructor
  · intro hv
    exact resolve_nan_run hv
  · intro q hv
    exact resolve_coerce_run hv env s

/-- Witness for C7's amended theorem: a missing project id is NaN and is
rejected with no store or remote activity. -/
theorem tenant_id_validation_witness :
    resolveDashboardId .undefinedV "Sales" testEnv []
      = (.error "Invalid Project ID", [], []) :=
  (tenant_id_validation .undefinedV "Sales" testEnv []).1 rfl

/-! ## Claim C2 -/

/-- C2 (code bug): folder reuse is dead code.  The source's `$set {folderId,
groupId}` targets paths the schema does not define, which Mongoose's default
strict mode strips, so `mapping?.folderId` is always undefined.  Concretely:
a full successful provisioning of (7, "Sales") leaves a stored record
holding only the dashboard map (the record type, mirroring the schema,
cannot even represent a folder id), the reuse guard evaluates to nothing on
that record, and resolving a second module ("Marketing") for the same
tenant re-runs group resolution and creates a fresh collection instead of
reusing the folder. -/
theorem folder_reuse_dead :
    (resolveDashboardId (.num 7) "Sales" testEnv []).2.1
      = [(7, { dashboardId := [("Sales", 77)] })] ∧
    truthyFolder
        (Store.findOne [(7, { dashboardId := [("Sales", 77)] })] 7) = none ∧
    RemoteCall.createGroup "Tenant_7"
      ∈ (resolveDashboardId (.num 7) "Marketing" testEnv
          [(7, { dashboardId := [("Sales", 77)] })]).2.2 ∧
    RemoteCall.createCollection
        { name := "Project 7"
          description := "Dashboard collection for project 7"
          parent_id := 162, color := "#509EE3" }
      ∈ (resolveDashboardId (.num 7) "Marketing" testEnv
          [(7, { dashboardId := [("Sales", 77)] })]).2.2 := by
  refine ⟨rfl, rfl, ?_, ?_⟩ <;> decide

/-! ## Claim C5 -/

/-- C5 counterexample: the module name "toString" is not in ModuleConfig,
yet the claim fails at it.  `CONFIG_MAP["toString"]` is the truthy member
inherited from `Object.prototype`, so the invalid-module throw is skipped:
against the healthy environment the resolve performs remote calls —
including a dashboard copy whose template id is undefined
(`/api/dashboard/undefined/copy`) — writes the store, and returns ok
instead of an input error naming the module. -/
theorem unknown_module_proto_counterexample :
    alookup CONFIG_MAP "toString" = none ∧
    (resolveDashboardId (.num 100) "toString" testEnv []).1
      = .ok (DashValue.id 77) ∧
    RemoteCall.copyDashboard none
        { name := "toString Dashboard"
          description := "toString dashboard for Project 100"
          is_deep_copy := true, collection_id := 90 }
      ∈ (resolveDashboardId (.num 100) "toString" testEnv []).2.2 ∧
    (resolveDashboardId (.num 100) "toString" testEnv []).2.1 ≠ [] := by
  refine ⟨rfl, rfl, ?_, ?_⟩ <;> decide

/-- C5 (amended): for every module name that is neither in the module
configuration (which holds exactly Sales, Marketing and Operations —
witnessed by the concrete `CONFIG_MAP`) nor one of the `Object.prototype`
property names (for which the JS lookup `CONFIG_MAP[moduleName]` is a
truthy inherited member and provisioning proceeds instead of failing),
(a) no reachable store state has a truthy dashboard entry for it, so (b)
applies: `resolveDashboardId` for a valid tenant id fails with an input
error naming the module, makes zero remote calls and leaves the store
unchanged. -/
theorem unknown_module_fast_fail (m : String)
    (hm : alookup CONFIG_MAP m = none) (hp : m ∉ protoKeys) :
    (∀ s, Reachable s → ∀ pid, dashTruthy (Store.findOne s pid) m = none) ∧
    (∀ v pid env s, jsToNumber v = some pid →
      dashTruthy (Store.findOne s pid) m = none →
      resolveDashboardId v m env s
        = (.error ("Invalid module: " ++ m), s, [])) := by
  constructor
  · intro s hs pid
    exact modulesKnown_no_unknown (reachable_inv hs) hm hp pid
  · intro v pid env s hv hc
    have hcfg : configLookup m = none := by
      simp [configLookup, hm, hp]
    exact resolve_unknown_module_run hv hc hcfg

/-- Witness for C5 at the spec's own example: resolve(100, "Billing"). -/
theorem unknown_module_fast_fail_witness :
    resolveDashboardId (.num 100) "Billing" testEnv []
      = (.error "Invalid module: Billing", [], []) :=
  (unknown_module_fast_fail "Billing" rfl (by decide)).2
    (.num 100) 100 testEnv [] rfl rfl

/-! ## Claim C4 -/

/-- A `try` block whose `catch` returns normally never produces an error. -/
theorem attempt_pure_ok (x : M Unit) (env : Env) (s : Store) :
    (M.attempt x (fun _ => pure ()) env s).1 = Except.ok () := by
  unfold M.attempt
  rcases hx : x env s with ⟨r, s1, t1⟩
  cases r with
  | ok a => cases a; rfl
  | error e => rfl

/-- `cloneSandboxingRules` never fails, whatever the remote service does. -/
theorem sandbox_ok (g : Nat) (env : Env) (s : Store) :
    (cloneSandboxingRules g env s).1 = Except.ok () := by
  unfold cloneSandboxingRules
  exact attempt_pure_ok _ env s

/-- A failing permission-graph read propagates out of
`cloneDataPermissionsFromTemplate`. -/
theorem clone_read_error {g : Nat} {env : Env} {s : Store} {e : String}
    (hpg : env.getPermGraph = .error e) :
    (cloneDataPermissionsFromTemplate g env s).1 = .error e := by
  unfold cloneDataPermissionsFromTemplate
  rw [run_bind]
  simp only [remoteGetPermGraph]
  rw [hpg]

/-- A failing permission-graph write propagates out of
`cloneDataPermissionsFromTemplate` (on the path that reaches the write:
template entry present, target distinct from the template). -/
theorem clone_write_error {g : Nat} {env : Env} {s : Store} {pg : PermGraph}
    {tpl : String} {e : String}
    (hpg : env.getPermGraph = .ok pg)
    (htpl : alookup pg.groups (toString TEMPLATE_GROUP_ID) = some tpl)
    (hne : toString g ≠ toString TEMPLATE_GROUP_ID)
    (hput : ∀ x, env.putPermGraph x = .error e) :
    (cloneDataPermissionsFromTemplate g env s).1 = .error e := by
  unfold cloneDataPermissionsFromTemplate
  rw [run_bind]
  simp only [remoteGetPermGraph]
  rw [hpg]
  dsimp only
  rw [htpl]
  dsimp only
  rw [if_neg (fun hh => hne hh.symm)]
  rw [run_bind]
  simp only [remotePutPermGraph]
  rw [hput]

/-- A healthy graph read and write make `cloneDataPermissionsFromTemplate`
succeed regardless of every sandboxing endpoint. -/
theorem clone_ok {g : Nat} {env : Env} {s : Store} {pg : PermGraph} {tpl : String}
    (hpg : env.getPermGraph = .ok pg)
    (htpl : alookup pg.groups (toString TEMPLATE_GROUP_ID) = some tpl)
    (hne : toString g ≠ toString TEMPLATE_GROUP_ID)
    (hput : ∀ x, env.putPermGraph x = .ok ()) :
    (cloneDataPermissionsFromTemplate g env s).1 = .ok () := by
  unfold cloneDataPermissionsFromTemplate
  rw [run_bind]
  simp only [remoteGetPermGraph]
  rw [hpg]
  dsimp only
  rw [htpl]
  dsimp only
  rw [if_neg (fun hh => hne hh.symm)]
  rw [run_bind]
  simp only [remotePutPermGraph]
  rw [hput]
  dsimp only
  exact sandbox_ok g env s

/-- C4: sandboxing-rule cloning is best-effort — each of its steps (listing,
deleting, recreating GTAP rules) may fail without `cloneSandboxingRules`
failing, and group resolution succeeds with no assumption at all on the GTAP
endpoints — while a failure reading or writing the base data-permission
graph propagates out of the clone and aborts `getOrCreateMetabaseGroup` with
that error. -/
theorem group_clone_error_policy :
    (∀ (g : Nat) (env : Env) (s : Store),
      (cloneSandboxingRules g env s).1 = Except.ok ()) ∧
    (∀ (pid : Rat) (env : Env) (s : Store) (gs : List MbGroup) (gr : MbGroup)
      (pg : PermGraph) (tpl : String),
      env.getGroups = .ok gs →
      gs.find? (fun g2 => g2.name == "Tenant_" ++ ratToString pid) = some gr →
      env.getPermGraph = .ok pg →
      alookup pg.groups (toString TEMPLATE_GROUP_ID) = some tpl →
      toString gr.id ≠ toString TEMPLATE_GROUP_ID →
      (∀ x, env.putPermGraph x = .ok ()) →
      (getOrCreateMetabaseGroup pid env s).1 = .ok gr.id) ∧
    (∀ (g : Nat) (env : Env) (s : Store) (e : String),
      env.getPermGraph = .error e →
      (cloneDataPermissionsFromTemplate g env s).1 = .error e) ∧
    (∀ (pid : Rat) (env : Env) (s : Store) (gs : List MbGroup) (gr : MbGroup)
      (e : String),
      env.getGroups = .ok gs →
      gs.find? (fun g2 => g2.name == "Tenant_" ++ ratToString pid) = some gr →
      env.getPermGraph = .error e →
      (getOrCreateMetabaseGroup pid env s).1 = .error e) ∧
    (∀ (g : Nat) (env : Env) (s : Store) (pg : PermGraph) (tpl : String)
      (e : String),
      env.getPermGraph = .ok pg →
      alookup pg.groups (toString TEMPLATE_GROUP_ID) = some tpl →
      toString g ≠ toString TEMPLATE_GROUP_ID →
      (∀ x, env.putPermGraph x = .error e) →
      (cloneDataPermissionsFromTemplate g env s).1 = .error e) := by
  refine ⟨sandbox_ok, ?_, fun g env s e h => clone_read_error h, ?_,
    fun g env s pg tpl e h1 h2 h3 h4 => clone_write_error h1 h2 h3 h4⟩
  · intro pid env s gs gr pg tpl hgs hfind hpg htpl hne hput
    unfold getOrCreateMetabaseGroup
    rw [run_bind]
    simp only [remoteGetGroups]
    rw [hgs]
    dsimp only
    rw [hfind]
    dsimp only
    rw [run_bind]
    rcases hcl : cloneDataPermissionsFromTemplate gr.id env s with ⟨rc, sc, tc⟩
    have hok := clone_ok hpg htpl hne hput (g := gr.id) (s := s)
    rw [hcl] at hok
    have h2 : rc = Except.ok () := hok
    rw [h2]
    rfl
  · intro pid env s gs gr e hgs hfind hpg
    unfold getOrCreateMetabaseGroup
    rw [run_bind]
    simp only [remoteGetGroups]
    rw [hgs]
    dsimp only
    rw [hfind]
    dsimp only
    rw [run_bind]
    rcases hcl : cloneDataPermissionsFromTemplate gr.id env s with ⟨rc, sc, tc⟩
    have herr := clone_read_error hpg (g := gr.id) (s := s)
    rw [hcl] at herr
    have h2 : rc = Except.error e := herr
    rw [h2]

/-- Witness for C4: with every GTAP endpoint failing but the permission graph
healthy, resolving the existing group `Tenant_7` still succeeds. -/
theorem group_clone_error_policy_witness :
    (getOrCreateMetabaseGroup 7 gtapFailEnv []).1 = .ok 50 := by
  have h := group_clone_error_policy.2.1 7 gtapFailEnv []
    [{ id := 50, name := "Tenant_7" }] { id := 50, name := "Tenant_7" }
    { groups := [("269", "template-subtree")], rest := "dbperm" } "template-subtree"
    rfl rfl rfl rfl (by decide) (fun x => rfl)
  exact h

/-! ## Claim C3 -/

/-- C3 (code bug): the code's folder upsert sends `$set {folderId, groupId}`
(`script.js` lines 283-297) — the evident intent, matching the claim — but
`dashboardMappingSchema` defines neither path and Mongoose's default strict
mode strips them, so the persisted record after a successful folder
resolution contains neither id.  Concretely: resolving tenant 7's folder
against the healthy environment provisions folder 90 and group 50 (they are
returned), yet the stored record is the bare document holding only the
empty dashboard map — the record type, mirroring the schema, has no
folderId or groupId path at all. -/
theorem folder_persists_nothing :
    (getOrCreateProjectFolder 7 testEnv []).1 = .ok (90, some 50) ∧
    (getOrCreateProjectFolder 7 testEnv []).2.1
      = [(7, { dashboardId := [] })] :=
  ⟨rfl, rfl⟩

/-! ## Claim C1 -/

/-- C1: (a) a resolve from a state with no (truthy) stored entry that
succeeds made exactly one remote dashboard-copy, and an immediately repeated
resolve against the stored state returns the same id with no remote call and
no store change — so the two sequential calls perform exactly one copy in
total and agree on the id; (b) once a (truthy) dashboard entry is stored for
a (tenant, module), any later resolve returns it unchanged, with no store
write: the entry is never overwritten.  (The hypotheses `d ≠ 0` reflect the
JS truthiness test `mapping?.dashboardId?.[moduleName]`; remote dashboard
ids are positive.) -/
theorem resolve_idempotent :
    (∀ (v : JsValue) (pid : Rat) (m : String) (env : Env) (s : Store)
        (d : Nat) (s1 : Store) (t1 : List RemoteCall),
      jsToNumber v = some pid →
      dashTruthy (Store.findOne s pid) m = none →
      resolveDashboardId v m env s = (.ok (DashValue.id d), s1, t1) →
      d ≠ 0 →
      copyCount t1 = 1 ∧
      resolveDashboardId v m env s1 = (.ok (DashValue.id d), s1, [])) ∧
    (∀ (v : JsValue) (pid : Rat) (m : String) (env : Env) (s : Store) (d : Nat)
        (mp : Mapping),
      jsToNumber v = some pid →
      Store.findOne s pid = some mp →
      alookup mp.dashboardId m = some d →
      d ≠ 0 →
      resolveDashboardId v m env s = (.ok (DashValue.id d), s, [])) := by
  constructor
  · intro v pid m env s d s1 t1 hv hc h hd
    obtain ⟨hcopy, mp, hfind, halo⟩ := resolve_ok_run hv hc h
    refine ⟨hcopy, ?_⟩
    have hc2 : dashTruthy (Store.findOne s1 pid) m = some (DashValue.id d) := by
      rw [hfind]
      unfold dashTruthy
      dsimp only
      rw [halo]
      simp [hd]
    exact resolve_cached_run hv hc2
  · intro v pid m env s d mp hv hfind halo hd
    have hc : dashTruthy (Store.findOne s pid) m = some (DashValue.id d) := by
      rw [hfind]
      unfold dashTruthy
      dsimp only
      rw [halo]
      simp [hd]
    exact resolve_cached_run hv hc

/-- Witness for C1: the concrete two-call run for tenant 7, module Sales,
against the healthy environment: the first call's trace contains exactly one
dashboard copy and the second call returns the same id 77 with no calls. -/
theorem resolve_idempotent_witness :
    copyCount
      [RemoteCall.getGroups, RemoteCall.createGroup "Tenant_7",
       RemoteCall.getPermGraph,
       RemoteCall.putPermGraph
         { groups := [("269", "template-subtree"), ("50", "template-subtree")],
           rest := "dbperm" },
       RemoteCall.getGtaps,
       RemoteCall.createCollection
         { name := "Project 7",
           description := "Dashboard collection for project 7",
           parent_id := 162, color := "#509EE3" },
       RemoteCall.getCollectionGraph,
       RemoteCall.putCollectionGraph
         { groups :=
             [("1", { name := some "All Users", perms := [("90", "none")] }),
              ("50", { name := none, perms := [("90", "write")] })],
           rest := "collperm" },
       RemoteCall.copyDashboard (some 71)
         { name := "Sales Dashboard",
           description := "Sales dashboard for Project 7",
           is_deep_copy := true, collection_id := 90 }] = 1 ∧
    resolveDashboardId (.num 7) "Sales" testEnv
        [(7, { dashboardId := [("Sales", 77)] })]
      = (.ok (DashValue.id 77),
         [(7, { dashboardId := [("Sales", 77)] })],
         []) := by
  exact resolve_idempotent.1 (.num 7) 7 "Sales" testEnv [] 77
    [(7, { dashboardId := [("Sales", 77)] })]
    [RemoteCall.getGroups, RemoteCall.createGroup "Tenant_7",
     RemoteCall.getPermGraph,
     RemoteCall.putPermGraph
       { groups := [("269", "template-subtree"), ("50", "template-subtree")],
         rest := "dbperm" },
     RemoteCall.getGtaps,
     RemoteCall.createCollection
       { name := "Project 7",
         description := "Dashboard collection for project 7",
         parent_id := 162, color := "#509EE3" },
     RemoteCall.getCollectionGraph,
     RemoteCall.putCollectionGraph
       { groups :=
           [("1", { name := some "All Users", perms := [("90", "none")] }),
            ("50", { name := none, perms := [("90", "write")] })],
         rest := "collperm" },
     RemoteCall.copyDashboard (some 71)
       { name := "Sales Dashboard",
         description := "Sales dashboard for Project 7",
         is_deep_copy := true, collection_id := 90 }]
    rfl rfl rfl (by decide)

/-! ## Claim C8 -/

theorem alookup_append_of_some {α : Type} {l1 : List (String × α)}
    (l2 : List (String × α)) {k : String} {v : α} (h : alookup l1 k = some v) :
    alookup (l1 ++ l2) k = some v := by
  induction l1 with
  | nil => simp [alookup] at h
  | cons q rest ih =>
      obtain ⟨qk, qv⟩ := q
      by_cases hk : qk = k
      · subst hk
        simp only [alookup, if_true, eq_self_iff_true, Option.some.injEq] at h
        simp [alookup, h]
      · simp only [alookup, if_neg hk] at h
        simp [alookup, hk, ih h]

theorem alookup_append_of_none {α : Type} {l1 : List (String × α)}
    (l2 : List (String × α)) {k : String} (h : alookup l1 k = none) :
    alookup (l1 ++ l2) k = alookup l2 k := by
  induction l1 with
  | nil => simp [alookup]
  | cons q rest ih =>
      obtain ⟨qk, qv⟩ := q
      by_cases hk : qk = k
      · subst hk
        simp [alookup] at h
      · simp only [alookup, if_neg hk] at h
        simp [alookup, hk, ih h]

/-- `collSet` rewrites the addressed group's entry. -/
theorem alookup_collSet_self {l : List (String × CollEntry)} {gk : String}
    {e : CollEntry} (ck v : String) (h : alookup l gk = some e) :
    alookup (collSet l gk ck v) gk = some { e with perms := aset e.perms ck v } := by
  induction l with
  | nil => simp [alookup] at h
  | cons q rest ih =>
      obtain ⟨qk, qv⟩ := q
      by_cases hk : qk = gk
      · subst hk
        simp only [alookup, if_true, eq_self_iff_true, Option.some.injEq] at h
        subst h
        simp [collSet, alookup]
      · simp only [alookup, if_neg hk] at h
        simp [collSet, hk, alookup, ih h]

/-- `collSet` leaves every other group's entry alone. -/
theorem alookup_collSet_ne {l : List (String × CollEntry)} {gk gk2 : String}
    (ck v : String) (h : gk2 ≠ gk) :
    alookup (collSet l gk ck v) gk2 = alookup l gk2 := by
  induction l with
  | nil => simp [collSet]
  | cons q rest ih =>
      obtain ⟨qk, qv⟩ := q
      by_cases hk : qk = gk
      · subst hk
        have h2 : ¬ qk = gk2 := fun hh => h hh.symm
        simp [collSet, alookup, h2, ih]
      · simp [collSet, hk, alookup, ih]

/-- Effect of the two permission writes on the collection graph's groups:
the tenant entry gets the collection set to "write", group "1" gets it set
to "none", everything else is untouched. -/
theorem setCollGraph_props {groups0 : List (String × CollEntry)} {gkS : String}
    (ckS : String) {eg e1 : CollEntry}
    (hA0 : alookup groups0 gkS = some eg)
    (hB0 : alookup groups0 "1" = some e1)
    (hne : gkS ≠ "1") :
    alookup (collSet (collSet groups0 gkS ckS "write") "1" ckS "none") gkS
      = some { eg with perms := aset eg.perms ckS "write" } ∧
    alookup (collSet (collSet groups0 gkS ckS "write") "1" ckS "none") "1"
      = some { e1 with perms := aset e1.perms ckS "none" } ∧
    ∀ gk, gk ≠ gkS → gk ≠ "1" →
      alookup (collSet (collSet groups0 gkS ckS "write") "1" ckS "none") gk
        = alookup groups0 gk := by
  have hB1 : alookup (collSet groups0 gkS ckS "write") "1" = some e1 :=
    (alookup_collSet_ne ckS "write" (fun hh => hne hh.symm)).trans hB0
  have hA1 := alookup_collSet_self ckS "write" hA0
  refine ⟨(alookup_collSet_ne ckS "none" hne).trans hA1,
    alookup_collSet_self ckS "none" hB1, ?_⟩
  intro gk hgk h1k
  exact (alookup_collSet_ne ckS "none" h1k).trans
    (alookup_collSet_ne ckS "write" hgk)

/-- C8: for a (newly created) folder, `setCollectionPermissions` reads the
collection permission graph and writes back a graph in which the tenant's
group has "write" access to that folder, the default "All Users" group (key
"1") has its access to that folder set to "none", and every other
(group, collection) entry is exactly as read.  Hypotheses: the read graph
contains the default group under key "1" (Metabase's built-in All Users
group) and the tenant's group is not group 1. -/
theorem collection_permissions_outcome (cid gid : Nat) (env : Env) (s : Store)
    (g0 : CollGraph) (e1 : CollEntry)
    (hg : env.getCollectionGraph = .ok g0)
    (h1 : alookup g0.groups "1" = some e1)
    (hne : toString gid ≠ "1") :
    ∃ g2 : CollGraph,
      setCollectionPermissions cid gid env s
        = (env.putCollectionGraph g2, s,
           [.getCollectionGraph, .putCollectionGraph g2]) ∧
      collPermOf g2 (toString gid) (toString cid) = some "write" ∧
      collPermOf g2 "1" (toString cid) = some "none" ∧
      (∀ gk ck, ¬(gk = toString gid ∧ ck = toString cid) →
        ¬(gk = "1" ∧ ck = toString cid) →
        collPermOf g2 gk ck = collPermOf g0 gk ck) := by
  unfold setCollectionPermissions
  rw [run_bind]
  simp only [remoteGetCollGraph]
  rw [hg]
  dsimp only
  cases hgid : alookup g0.groups (toString gid) with
  | some eg =>
      have hprops := setCollGraph_props (toString cid) hgid h1 hne
      obtain ⟨hA2, hB2, hC2⟩ := hprops
      have hB1 : alookup (collSet g0.groups (toString gid) (toString cid) "write") "1"
          = some e1 :=
        (alookup_collSet_ne (toString cid) "write" (fun hh => hne hh.symm)).trans h1
      rw [hB1]
      simp only [Option.isSome_some, if_true]
      rw [hB1]
      simp only [Option.isSome_some, if_true]
      refine ⟨_, rfl, ?_, ?_, ?_⟩
      · simp only [collPermOf, hA2]
        exact alookup_aset_self _ _ _
      · simp only [collPermOf, hB2]
        exact alookup_aset_self _ _ _
      · intro gk ck hx1 hx2
        by_cases hgk : gk = toString gid
        · subst hgk
          have hck : ck ≠ toString cid := fun hh => hx1 ⟨rfl, hh⟩
          simp only [collPermOf, hA2, hgid]
          exact alookup_aset_ne _ _ _ _ hck
        · by_cases h1k : gk = "1"
          · subst h1k
            have hck : ck ≠ toString cid := fun hh => hx2 ⟨rfl, hh⟩
            simp only [collPermOf, hB2, h1]
            exact alookup_aset_ne _ _ _ _ hck
          · simp only [collPermOf, hC2 gk hgk h1k]
  | none =>
      have hA0 : alookup
          (g0.groups ++ [(toString gid, { name := none, perms := [] })])
          (toString gid) = some { name := none, perms := [] } := by
        rw [alookup_append_of_none _ hgid]
        simp [alookup]
      have hB0 : alookup
          (g0.groups ++ [(toString gid, { name := none, perms := [] })]) "1"
          = some e1 :=
        alookup_append_of_some _ h1
      have hprops := setCollGraph_props (toString cid) hA0 hB0 hne
      obtain ⟨hA2, hB2, hC2⟩ := hprops
      have hB1 : alookup (collSet
            (g0.groups ++ [(toString gid, { name := none, perms := [] })])
            (toString gid) (toString cid) "write") "1" = some e1 :=
        (alookup_collSet_ne (toString cid) "write" (fun hh => hne hh.symm)).trans hB0
      rw [hB1]
      simp only [Option.isSome_some, if_true]
      rw [hB1]
      simp only [Option.isSome_some, if_true]
      refine ⟨_, rfl, ?_, ?_, ?_⟩
      · simp only [collPermOf, hA2]
        exact alookup_aset_self _ _ _
      · simp only [collPermOf, hB2]
        exact alookup_aset_self _ _ _
      · intro gk ck hx1 hx2
        by_cases hgk : gk = toString gid
        · subst hgk
          have hck : ¬ toString cid = ck := fun hh => hx1 ⟨rfl, hh.symm⟩
          simp only [collPermOf, hA2, hgid]
          simp [aset, alookup, hck]
        · by_cases h1k : gk = "1"
          · subst h1k
            have hck : ck ≠ toString cid := fun hh => hx2 ⟨rfl, hh⟩
            simp only [collPermOf, hB2, h1]
            exact alookup_aset_ne _ _ _ _ hck
          · have hgother : alookup
                (g0.groups ++ [(toString gid, { name := none, perms := [] })]) gk
                = alookup g0.groups gk := by
              cases hg2 : alookup g0.groups gk with
              | some w => exact alookup_append_of_some _ hg2
              | none =>
                  have h3 : ¬ toString gid = gk := fun hh => hgk hh.symm
                  rw [alookup_append_of_none _ hg2]
                  simp [alookup, h3]
            simp only [collPermOf, hC2 gk hgk h1k, hgother]

/-- Witness for C8: new folder 90 and tenant group 50 against the healthy
environment, whose collection graph holds only the default group "1". -/
theorem collection_permissions_outcome_witness :
    ∃ g2 : CollGraph,
      setCollectionPermissions 90 50 testEnv []
        = (testEnv.putCollectionGraph g2, [],
           [.getCollectionGraph, .putCollectionGraph g2]) ∧
      collPermOf g2 "50" "90" = some "write" ∧
      collPermOf g2 "1" "90" = some "none" ∧
      (∀ gk ck, ¬(gk = "50" ∧ ck = "90") → ¬(gk = "1" ∧ ck = "90") →
        collPermOf g2 gk ck = collPermOf
          { groups := [("1", { name := some "All Users", perms := [] })],
            rest := "collperm" } gk ck) := by
  have h := collection_permissions_outcome 90 50 testEnv []
    { groups := [("1", { name := some "All Users", perms := [] })],
      rest := "collperm" }
    { name := some "All Users", perms := [] } rfl rfl (by decide)
  exact h

/-! ## Claim C9 -/

/-- C9 counterexample: a request with the module name omitted does default to
"Management", but the operation does not return a dashboardId — "Management"
is not in the module configuration, so even with an empty store and a fully
healthy remote service the route fails with an invalid-module error. -/
theorem default_module_counterexample :
    moduleOf { project_id := .num 100 } = "Management" ∧
    (dashboardIdRoute { project_id := .num 100 } testEnv []).1
      = .error "Invalid module: Management" :=
  ⟨rfl, rfl⟩

/-- C9 (amended): when the module name (and the `dashboard_type` fallback)
is omitted, the resolve-dashboard-id route uses the default module
"Management"; since "Management" is not in the module configuration, the
request fails with the input error "Invalid module: Management" (zero remote
calls, store unchanged) whenever the tenant has no stored (truthy)
"Management" entry — in particular always, from any reachable store. -/
theorem default_module_management (b : ReqBody) (env : Env) (s : Store)
    (hm : b.module_name = none) (hd : b.dashboard_type = none) :
    moduleOf b = "Management" ∧
    dashboardIdRoute b env s
      = resolveDashboardId b.project_id "Management" env s ∧
    (∀ pid, jsToNumber b.project_id = some pid →
      dashTruthy (Store.findOne s pid) "Management" = none →
      dashboardIdRoute b env s
        = (.error "Invalid module: Management", s, [])) := by
  have hmod : moduleOf b = "Management" := by
    simp [moduleOf, hm, hd, jsOrStr]
  refine ⟨hmod, ?_, ?_⟩
  · unfold dashboardIdRoute
    rw [hmod]
  · intro pid hv hc
    unfold dashboardIdRoute
    rw [hmod]
    exact resolve_unknown_module_run hv hc rfl

/-- Witness for C9's amended theorem at a concrete omitted-module request. -/
theorem default_module_management_witness :
    moduleOf { project_id := .num 100 } = "Management" ∧
    dashboardIdRoute { project_id := .num 100 } testEnv []
      = (.error "Invalid module: Management", [], []) := by
  have h := default_module_management { project_id := .num 100 } testEnv [] rfl rfl
  exact ⟨h.1, h.2.2 100 rfl rfl⟩

/-! ## Claim C10 -/

/-- C10: in the combined issue-session-token route, for a request whose
project_id is a numeric string, the signed token is built from the raw,
uncoerced string — its project_id claim is that string (not a number) and
its group claim is "Tenant_" concatenated with the raw string — while
dashboard resolution behaves exactly as on the coerced number, i.e. the
store is keyed by `Number(project_id)`. -/
theorem sso_raw_token_coerced_store (b : ReqBody) (now : Nat) (env : Env)
    (s : Store) (str : String) (q : Rat)
    (hpid : b.project_id = .str str)
    (hq : strToNumber str = some q) :
    (∀ tok d s2 t, ssoMetabaseRoute b now env s = (.ok (tok, d), s2, t) →
      tok.payload.project_id = .str str ∧
      tok.payload.groups = ["Tenant_" ++ str] ∧
      tok = signToken (.str str) b.email_id b.profile now) ∧
    (∀ env2 s2, resolveDashboardId b.project_id (moduleOf b) env2 s2
      = resolveDashboardId (.num q) (moduleOf b) env2 s2) := by
  constructor
  · intro tok d s2 t h
    unfold ssoMetabaseRoute at h
    rw [run_bind] at h
    rcases hr : resolveDashboardId b.project_id (moduleOf b) env s with ⟨rr, sr, tr⟩
    rw [hr] at h
    cases rr with
    | error e => simp at h
    | ok d2 =>
        simp only [Pure.pure, M.pure, Prod.mk.injEq, Except.ok.injEq] at h
        obtain ⟨⟨htok, hd⟩, hs2, ht⟩ := h
        rw [hpid] at htok
        subst htok
        exact ⟨rfl, rfl, rfl⟩
  · intro env2 s2
    rw [hpid]
    have hv : jsToNumber (.str str) = some q := by
      simp [jsToNumber, hq]
    exact resolve_coerce_run hv env2 s2

/-- Witness for C10: project_id "42" yields a token whose claim is the raw
string "42" and a group "Tenant_42", while the store records tenant 42 (the
number). -/
theorem sso_raw_token_coerced_store_witness :
    (ssoMetabaseRoute
        { project_id := .str "42", module_name := some "Sales",
          email_id := .str "a@b.com" } 1000 testEnv []).2.1
      = [((42 : Rat), { dashboardId := [("Sales", 77)] })] ∧
    ∀ tok d s2 t,
      ssoMetabaseRoute
          { project_id := .str "42", module_name := some "Sales",
            email_id := .str "a@b.com" } 1000 testEnv []
        = (.ok (tok, d), s2, t) →
      tok.payload.project_id = .str "42" ∧
      tok.payload.groups = ["Tenant_42"] := by
  have h := sso_raw_token_coerced_store
    { project_id := .str "42", module_name := some "Sales",
      email_id := .str "a@b.com" } 1000 testEnv [] "42" 42 rfl rfl
  refine ⟨rfl, ?_⟩
  intro tok d s2 t heq
  have h2 := h.1 tok d s2 t heq
  exact ⟨h2.1, h2.2.1⟩
